import Mathlib

/-!
Verification of the spatial-index and entity-resolution core of the
roma-data-pipeline repository.

The definitions below are shallow embeddings of:
* `src/roma_data/spatial/index.py` (class `SpatialIndex`),
* `src/roma_data/transform/locations.py` (`transform_locations`,
  `deduplicate_locations`),
* `src/roma_data/transform/enrichment.py` (`_assign_provinces`).

Coordinates, cell sizes and radii are modelled as rationals; the
haversine distance, which the Python code computes with floating-point
trigonometry, is modelled exactly over the reals.  Python dict values
that may be `None` are modelled as `Option`; Python truthiness tests on
them (`if prov.get("centroid_lat")`, `if loc.get("province_id")`,
`if best_prov`) are modelled exactly, including their treatment of `0`
and `""` as falsy.
-/

/-- Python's `int()` conversion on a (rational) number: truncation toward
zero, i.e. floor for nonnegative and ceiling for negative arguments. -/
def ratTrunc (x : ℚ) : ℤ := if 0 ≤ x then ⌊x⌋ else ⌈x⌉

/-- Model of `math.radians`: degrees to radians. -/
noncomputable def radians (x : ℚ) : ℝ := (x : ℝ) * Real.pi / 180

/-- The opaque payload dict passed to `SpatialIndex.add`: it may or may
not carry its own `"lat"`/`"lon"` keys (which the dict-spread
`{"lat": lat, "lon": lon, **data}` lets override the coordinate
arguments), plus arbitrary further content abstracted as a tag. -/
structure Payload where
  plat : Option ℚ
  plon : Option ℚ
  tag : ℕ
deriving DecidableEq

/-- An entry of a grid bucket: the merged dict
`{"lat": lat, "lon": lon, **data}`, i.e. effective coordinates plus the
payload. -/
structure Entity where
  lat : ℚ
  lon : ℚ
  data : Payload
deriving DecidableEq

/-- State of `SpatialIndex`: configured cell size and the grid mapping
cell keys to buckets (cells never inserted into hold `[]`, matching the
`cell not in self._grid: continue` skip in the Python code). -/
structure SpatialIndex where
  cell_size : ℚ
  grid : ℤ × ℤ → List Entity

namespace SpatialIndex

/-- Earth radius constant of the class. -/
def EARTH_RADIUS_KM : ℝ := 6371

/-- Model of `SpatialIndex._haversine_distance`. -/
noncomputable def _haversine_distance (lat1 lon1 lat2 lon2 : ℚ) : ℝ :=
  EARTH_RADIUS_KM * (2 * Real.arcsin (Real.sqrt (
    Real.sin (radians (lat2 - lat1) / 2) ^ 2 +
      Real.cos (radians lat1) * Real.cos (radians lat2) *
        Real.sin (radians (lon2 - lon1) / 2) ^ 2)))

/-- Model of `SpatialIndex.__init__`: stores the given cell size (no validation)
and an empty grid. -/
def init (cell_size : ℚ) : SpatialIndex := ⟨cell_size, fun _ => []⟩

/-- Model of `SpatialIndex._get_cell`: `(int(lat / cell_size), int(lon / cell_size))`. -/
def _get_cell (idx : SpatialIndex) (lat lon : ℚ) : ℤ × ℤ :=
  (ratTrunc (lat / idx.cell_size), ratTrunc (lon / idx.cell_size))

/-- The entity stored by `SpatialIndex.add`: the dict
`{"lat": lat, "lon": lon, **data}`, in which a `"lat"`/`"lon"` key of
`data` overrides the coordinate argument. -/
def storedEntity (lat lon : ℚ) (data : Payload) : Entity :=
  ⟨data.plat.getD lat, data.plon.getD lon, data⟩

/-- Model of `SpatialIndex.add`: append the stored entity to the bucket of the
cell computed from the coordinate arguments. -/
def add (idx : SpatialIndex) (lat lon : ℚ) (data : Payload) : SpatialIndex :=
  { idx with
    grid := fun c =>
      if c = idx._get_cell lat lon then idx.grid c ++ [storedEntity lat lon data]
      else idx.grid c }

/-- The `cells_to_check` value: `int(math.ceil((range_km / 111.0) / cell_size)) + 1`
(shared by `find_nearest` and `find_within`). -/
def cellsToCheck (idx : SpatialIndex) (range_km : ℚ) : ℤ :=
  ⌈range_km / 111 / idx.cell_size⌉ + 1

/-- Python's `range(-n, n + 1)` as a list of integers. -/
def intRange (n : ℤ) : List ℤ :=
  (List.range (2 * n + 1).toNat).map (fun (i : ℕ) => (i : ℤ) - n)

/-- The entities of all grid cells visited by the `dx`/`dy` double loop
of `find_nearest` / `find_within`, in visit order. -/
def scanList (idx : SpatialIndex) (lat lon range_km : ℚ) : List Entity :=
  (intRange (idx.cellsToCheck range_km)).flatMap (fun dx =>
    (intRange (idx.cellsToCheck range_km)).flatMap (fun dy =>
      idx.grid ((idx._get_cell lat lon).1 + dx, (idx._get_cell lat lon).2 + dy)))

open Classical in
/-- Model of `SpatialIndex.find_within`: all scanned entities at haversine
distance at most `radius_km`. -/
noncomputable def find_within (idx : SpatialIndex) (lat lon radius_km : ℚ) :
    List Entity :=
  (idx.scanList lat lon radius_km).filter (fun loc =>
    decide (_haversine_distance lat lon loc.lat loc.lon ≤ (radius_km : ℝ)))

open Classical in
/-- One iteration of the `find_nearest` loop body: the running state is
`none` (Python: `nearest is None`, `nearest_dist == inf`) or the current
nearest entity paired with its distance. -/
noncomputable def nstep (lat lon max_distance_km : ℚ)
    (acc : Option (Entity × ℝ)) (e : Entity) : Option (Entity × ℝ) :=
  match acc with
  | none =>
      if _haversine_distance lat lon e.lat e.lon ≤ (max_distance_km : ℝ) then
        some (e, _haversine_distance lat lon e.lat e.lon)
      else none
  | some (b, bd) =>
      if _haversine_distance lat lon e.lat e.lon < bd ∧
          _haversine_distance lat lon e.lat e.lon ≤ (max_distance_km : ℝ) then
        some (e, _haversine_distance lat lon e.lat e.lon)
      else some (b, bd)

/-- Model of `SpatialIndex.find_nearest`. -/
noncomputable def find_nearest (idx : SpatialIndex) (lat lon max_distance_km : ℚ) :
    Option Entity :=
  ((idx.scanList lat lon max_distance_km).foldl
    (nstep lat lon max_distance_km) none).map Prod.fst

end SpatialIndex

/-- Build an index by a sequence of `add` calls starting from `__init__`. -/
def ofInserts (cell_size : ℚ) (inserts : List (ℚ × ℚ × Payload)) : SpatialIndex :=
  inserts.foldl (fun idx t => idx.add t.1 t.2.1 t.2.2) (SpatialIndex.init cell_size)

/-- The entities stored by a sequence of `add` calls. -/
def entitiesOf (inserts : List (ℚ × ℚ × Payload)) : List Entity :=
  inserts.map (fun t => SpatialIndex.storedEntity t.1 t.2.1 t.2.2)

/-- A payload with no `"lat"`/`"lon"` keys of its own. -/
def p0 : Payload := ⟨none, none, 0⟩

/-- One insertion near the north pole at longitude 180. -/
def polIns : List (ℚ × ℚ × Payload) := [(899/10, 180, p0)]

/-- The entity stored by the insertion of `polIns`. -/
def eP : Entity := ⟨899/10, 180, p0⟩

/-- One insertion at the origin. -/
def ins0 : List (ℚ × ℚ × Payload) := [(0, 0, p0)]

/-- The entity stored by the insertion of `ins0`. -/
def e0 : Entity := ⟨0, 0, p0⟩

/-!
### Location records and deduplication (`transform/locations.py`)

A location record is a dict with an `"id"` key plus arbitrary further
keys; a key that is absent and a key mapped to `None` behave identically
everywhere in the merge logic (`existing.get(key) is None`,
`value is not None`), so both are modelled as `none`.
-/

/-- A normalized location-record dict: its `"id"` value plus its other
fields. -/
structure Rec (V : Type) where
  id : String
  fields : String → Option V

/-- The in-place field merge of `deduplicate_locations`: for every key,
keep the existing value when it is non-null, otherwise take the later
record's (possibly null) value. -/
def mergeRec {V : Type} (existing loc : Rec V) : Rec V :=
  ⟨existing.id, fun k =>
    match existing.fields k with
    | some v => some v
    | none => loc.fields k⟩

/-- One iteration of the `deduplicate_locations` loop over the
insertion-ordered dict `seen` (modelled as an association list with
unique keys). -/
def dedupStep {V : Type} (seen : List (String × Rec V)) (loc : Rec V) :
    List (String × Rec V) :=
  if (seen.lookup loc.id).isSome then
    seen.map (fun p => if p.1 = loc.id then (p.1, mergeRec p.2 loc) else p)
  else seen ++ [(loc.id, loc)]

/-- Model of `deduplicate_locations`: fold the records into `seen` and return
`list(seen.values())`. -/
def deduplicate_locations {V : Type} (locations : List (Rec V)) : List (Rec V) :=
  (locations.foldl dedupStep []).map Prod.snd

/-- One iteration of the per-source collection loop of
`transform_locations`: skip a record whose id was already seen,
otherwise append it and record its id. -/
def aggStep {V : Type} (acc : List (Rec V) × List String) (loc : Rec V) :
    List (Rec V) × List String :=
  if loc.id ∈ acc.2 then acc else (acc.1 ++ [loc], loc.id :: acc.2)

instance {V : Type} : DecidableRel (fun a b : Rec V => a.id ≤ b.id) :=
  fun a b => inferInstanceAs (Decidable (a.id ≤ b.id))

/-- The aggregation core of `transform_locations`: collect the three
sources' records in their fixed order (Pleiades, ORBIS, ToposText),
skipping already-seen ids, then sort the accumulated list by id. -/
def transform_locations {V : Type}
    (pleiades orbis topostext : List (Rec V)) : List (Rec V) :=
  (topostext.foldl aggStep (orbis.foldl aggStep
    (pleiades.foldl aggStep (([] : List (Rec V)), ([] : List String))))).1.insertionSort
      (fun a b => a.id ≤ b.id)

/-!
### Province assignment (`transform/enrichment.py`)
-/

/-- The fields of a location dict read or written by `_assign_provinces`. -/
structure LocationRec where
  id : String
  latitude : ℚ
  longitude : ℚ
  province_id : Option String
deriving DecidableEq

/-- The fields of a province dict read by `_assign_provinces`. -/
structure Province where
  id : String
  centroid_lat : Option ℚ
  centroid_lon : Option ℚ
deriving DecidableEq

/-- Python truthiness of an optional string (`None` and `""` are falsy). -/
def truthyStr : Option String → Bool
  | none => false
  | some s => decide (s ≠ "")

/-- Python truthiness of an optional number (`None` and `0` are falsy). -/
def truthyQ : Option ℚ → Bool
  | none => false
  | some x => decide (x ≠ 0)

/-- The `province_centroids` list built by `_assign_provinces`: provinces
whose `centroid_lat` and `centroid_lon` are both truthy. -/
def extractCentroids (provinces : List Province) : List (String × ℚ × ℚ) :=
  provinces.filterMap (fun prov =>
    match prov.centroid_lat, prov.centroid_lon with
    | some la, some lo => if la ≠ 0 ∧ lo ≠ 0 then some (prov.id, la, lo) else none
    | _, _ => none)

/-- The squared planar distance `(lat - plat) ** 2 + (lon - plon) ** 2`. -/
def sqDist (lat lon plat plon : ℚ) : ℚ := (lat - plat) ^ 2 + (lon - plon) ^ 2

/-- One iteration of the best-centroid loop (`if dist < best_dist`);
`none` is Python's initial `best_prov = None` / `best_dist = inf`. -/
def bestStep (lat lon : ℚ) (acc : Option (String × ℚ)) (c : String × ℚ × ℚ) :
    Option (String × ℚ) :=
  match acc with
  | none => some (c.1, sqDist lat lon c.2.1 c.2.2)
  | some (bp, bd) =>
      if sqDist lat lon c.2.1 c.2.2 < bd then some (c.1, sqDist lat lon c.2.1 c.2.2)
      else some (bp, bd)

/-- The best (first minimal) centroid for a coordinate pair. -/
def bestCentroid (cents : List (String × ℚ × ℚ)) (lat lon : ℚ) :
    Option (String × ℚ) :=
  cents.foldl (bestStep lat lon) none

/-- The per-record body of `_assign_provinces`: skip records with a
truthy `province_id`; otherwise assign the nearest centroid's id when
`best_prov` is truthy and `best_dist < 100`. -/
def assignRecord (cents : List (String × ℚ × ℚ)) (loc : LocationRec) :
    LocationRec :=
  if truthyStr loc.province_id then loc
  else
    match bestCentroid cents loc.latitude loc.longitude with
    | none => loc
    | some (bp, bd) =>
        if bp ≠ "" ∧ bd < 100 then { loc with province_id := some bp } else loc

/-- Model of `_assign_provinces`. -/
def _assign_provinces (locations : List LocationRec) (provinces : List Province) :
    List LocationRec :=
  let cents := extractCentroids provinces
  if cents = [] then locations
  else locations.map (assignRecord cents)

/-!
### Lemmas about the haversine distance
-/

namespace SpatialIndex

lemma hav_self (la lo : ℚ) : _haversine_distance la lo la lo = 0 := by
  unfold _haversine_distance radians EARTH_RADIUS_KM
  have h1 : ((la - la : ℚ) : ℝ) = 0 := by push_cast; ring
  have h2 : ((lo - lo : ℚ) : ℝ) = 0 := by push_cast; ring
  rw [h1, h2]
  rw [show (0 : ℝ) * Real.pi / 180 / 2 = 0 by ring, Real.sin_zero]
  norm_num

lemma hav_nonneg (a b c d : ℚ) : 0 ≤ _haversine_distance a b c d := by
  unfold _haversine_distance EARTH_RADIUS_KM
  exact mul_nonneg (by norm_num)
    (mul_nonneg (by norm_num) (Real.arcsin_nonneg.mpr (Real.sqrt_nonneg _)))

lemma pole_dist_le : _haversine_distance (899/10) 0 (899/10) 180 ≤ 50 := by
  unfold _haversine_distance radians EARTH_RADIUS_KM
  have h0 : ((899/10 - 899/10 : ℚ) : ℝ) = 0 := by norm_num
  have h180 : ((180 - 0 : ℚ) : ℝ) = 180 := by norm_num
  have hlat : ((899/10 : ℚ) : ℝ) = 899/10 := by norm_num
  rw [h0, h180, hlat]
  rw [show (0 : ℝ) * Real.pi / 180 / 2 = 0 by ring, Real.sin_zero]
  rw [show (180 : ℝ) * Real.pi / 180 / 2 = Real.pi / 2 by ring, Real.sin_pi_div_two]
  rw [show (899/10 : ℝ) * Real.pi / 180 = 899 * Real.pi / 1800 by ring]
  have hpi := Real.pi_pos
  have hxnn : (0 : ℝ) ≤ 899 * Real.pi / 1800 := by positivity
  have hxle : 899 * Real.pi / 1800 ≤ Real.pi / 2 := by nlinarith
  have hcos : 0 ≤ Real.cos (899 * Real.pi / 1800) :=
    Real.cos_nonneg_of_mem_Icc ⟨by linarith, hxle⟩
  rw [show (0 : ℝ) ^ 2 + Real.cos (899 * Real.pi / 1800) * Real.cos (899 * Real.pi / 1800) * 1 ^ 2
      = Real.cos (899 * Real.pi / 1800) * Real.cos (899 * Real.pi / 1800) by ring]
  rw [Real.sqrt_mul_self hcos]
  rw [show Real.cos (899 * Real.pi / 1800) = Real.sin (Real.pi / 2 - 899 * Real.pi / 1800) from
    (Real.sin_pi_div_two_sub _).symm]
  rw [Real.arcsin_sin (by linarith) (by linarith)]
  rw [show Real.pi / 2 - 899 * Real.pi / 1800 = Real.pi / 1800 by ring]
  nlinarith [Real.pi_lt_d2]

/-!
### Membership lemmas for the index operations
-/

lemma mem_find_within {idx : SpatialIndex} {lat lon r : ℚ} {e : Entity} :
    e ∈ idx.find_within lat lon r ↔
      e ∈ idx.scanList lat lon r ∧
        _haversine_distance lat lon e.lat e.lon ≤ (r : ℝ) := by
  unfold find_within
  simp only [List.mem_filter, decide_eq_true_eq]

lemma mem_scanList_exists {idx : SpatialIndex} {lat lon r : ℚ} {e : Entity}
    (h : e ∈ idx.scanList lat lon r) : ∃ c, e ∈ idx.grid c := by
  unfold scanList at h
  simp only [List.mem_flatMap] at h
  obtain ⟨dx, _, dy, _, h⟩ := h
  exact ⟨_, h⟩

lemma mem_grid_foldl (l : List (ℚ × ℚ × Payload)) :
    ∀ (idx : SpatialIndex) (c : ℤ × ℤ) (e : Entity),
      e ∈ ((l.foldl (fun i t => i.add t.1 t.2.1 t.2.2) idx).grid c) →
      (∃ c', e ∈ idx.grid c') ∨ e ∈ entitiesOf l := by
  induction l with
  | nil => exact fun idx c e h => Or.inl ⟨c, h⟩
  | cons t ts ih =>
    intro idx c e h
    rcases ih (idx.add t.1 t.2.1 t.2.2) c e h with ⟨c', hc'⟩ | he
    · unfold add at hc'
      dsimp only at hc'
      by_cases hcell : c' = idx._get_cell t.1 t.2.1
      · rw [if_pos hcell] at hc'
        rcases List.mem_append.mp hc' with hin | hstored
        · exact Or.inl ⟨c', hin⟩
        · refine Or.inr ?_
          rw [List.mem_singleton.mp hstored]
          exact List.mem_cons_self _ _
      · rw [if_neg hcell] at hc'
        exact Or.inl ⟨c', hc'⟩
    · exact Or.inr (List.mem_cons_of_mem _ he)

lemma mem_ofInserts {cell_size : ℚ} {l : List (ℚ × ℚ × Payload)}
    {c : ℤ × ℤ} {e : Entity} (h : e ∈ (ofInserts cell_size l).grid c) :
    e ∈ entitiesOf l := by
  rcases mem_grid_foldl l (init cell_size) c e h with ⟨c', hc'⟩ | he
  · cases hc'
  · exact he

lemma mem_scan_ofInserts {cell_size : ℚ} {l : List (ℚ × ℚ × Payload)}
    {lat lon r : ℚ} {e : Entity}
    (h : e ∈ (ofInserts cell_size l).scanList lat lon r) :
    e ∈ entitiesOf l := by
  obtain ⟨c, hc⟩ := mem_scanList_exists h
  exact mem_ofInserts hc

/-!
### Concrete evaluations: the pole example and the origin example
-/

lemma rt899 : ratTrunc (899/10) = 89 := by norm_num [ratTrunc]

lemma rt180 : ratTrunc (180 : ℚ) = 180 := by norm_num [ratTrunc]

lemma rt0 : ratTrunc (0 : ℚ) = 0 := by norm_num [ratTrunc]

lemma pole_cs : (ofInserts 1 polIns).cell_size = 1 := rfl

lemma pole_grid (c : ℤ × ℤ) :
    (ofInserts 1 polIns).grid c = if c = (89, 180) then [eP] else [] := by
  simp [ofInserts, polIns, add, init, _get_cell, storedEntity, eP, p0, rt899, rt180]

lemma pole_n : (ofInserts 1 polIns).cellsToCheck 50 = 2 := by
  have hc : (⌈(50/111 : ℚ)⌉ : ℤ) = 1 := by
    rw [Int.ceil_eq_iff]; constructor <;> norm_num
  simp [cellsToCheck, pole_cs]
  norm_num [hc]

lemma pole_c0 : (ofInserts 1 polIns)._get_cell (899/10) 0 = (89, 0) := by
  simp [_get_cell, pole_cs, rt899, rt0]

lemma pole_scan : (ofInserts 1 polIns).scanList (899/10) 0 50 = [] := by
  rw [scanList, pole_n, pole_c0]
  rw [show intRange 2 = [-2, -1, 0, 1, 2] from by decide]
  simp [pole_grid]

lemma org_cs : (ofInserts 1 ins0).cell_size = 1 := rfl

lemma org_grid (c : ℤ × ℤ) :
    (ofInserts 1 ins0).grid c = if c = (0, 0) then [e0] else [] := by
  simp [ofInserts, ins0, add, init, _get_cell, storedEntity, e0, p0, rt0]

lemma org_n : (ofInserts 1 ins0).cellsToCheck 0 = 1 := by
  simp [cellsToCheck, org_cs]

lemma org_c0 : (ofInserts 1 ins0)._get_cell 0 0 = (0, 0) := by
  simp [_get_cell, org_cs, rt0]

lemma org_scan : (ofInserts 1 ins0).scanList 0 0 0 = [e0] := by
  rw [scanList, org_n, org_c0]
  rw [show intRange 1 = [-1, 0, 1] from by decide]
  simp [org_grid]

lemma org_find_within : (ofInserts 1 ins0).find_within 0 0 0 = [e0] := by
  unfold find_within
  rw [org_scan]
  have he : _haversine_distance 0 0 e0.lat e0.lon ≤ (0 : ℝ) := by
    show _haversine_distance 0 0 0 0 ≤ (0 : ℝ)
    rw [hav_self]
  simp [he]

end SpatialIndex

/-!
### The `find_nearest` loop invariant
-/

namespace SpatialIndex

lemma nstep_cases (lat lon maxd : ℚ) (acc : Option (Entity × ℝ)) (e : Entity) :
    (nstep lat lon maxd acc e = none →
       acc = none ∧ ¬(_haversine_distance lat lon e.lat e.lon ≤ (maxd : ℝ))) ∧
    (∀ p : Entity × ℝ, nstep lat lon maxd acc e = some p →
       (acc = some p ∨
         (p.1 = e ∧ p.2 = _haversine_distance lat lon e.lat e.lon ∧
           _haversine_distance lat lon e.lat e.lon ≤ (maxd : ℝ))) ∧
       (_haversine_distance lat lon e.lat e.lon ≤ (maxd : ℝ) →
         p.2 ≤ _haversine_distance lat lon e.lat e.lon) ∧
       (∀ q : Entity × ℝ, acc = some q → p.2 ≤ q.2)) := by
  cases acc with
  | none =>
    simp only [nstep]
    by_cases hd : _haversine_distance lat lon e.lat e.lon ≤ (maxd : ℝ)
    · rw [if_pos hd]
      refine ⟨fun h => Option.noConfusion h, fun p hp => ?_⟩
      injection hp with hp
      refine ⟨Or.inr ?_, fun _ => ?_, fun q hq => Option.noConfusion hq⟩
      · rw [← hp]; exact ⟨rfl, rfl, hd⟩
      · rw [← hp]
    · rw [if_neg hd]
      exact ⟨fun _ => ⟨by trivial, hd⟩, fun p hp => Option.noConfusion hp⟩
  | some q0 =>
    obtain ⟨b, bd⟩ := q0
    simp only [nstep]
    by_cases hd : _haversine_distance lat lon e.lat e.lon < bd ∧
        _haversine_distance lat lon e.lat e.lon ≤ (maxd : ℝ)
    · rw [if_pos hd]
      refine ⟨fun h => Option.noConfusion h, fun p hp => ?_⟩
      injection hp with hp
      refine ⟨Or.inr ?_, fun _ => ?_, fun q hq => ?_⟩
      · rw [← hp]; exact ⟨rfl, rfl, hd.2⟩
      · rw [← hp]
      · injection hq with hq
        rw [← hp, ← hq]
        exact le_of_lt hd.1
    · rw [if_neg hd]
      refine ⟨fun h => Option.noConfusion h, fun p hp => ?_⟩
      injection hp with hp
      refine ⟨Or.inl (by rw [hp]), fun he => ?_, fun q hq => ?_⟩
      · have hnlt : ¬(_haversine_distance lat lon e.lat e.lon < bd) :=
          fun hlt => hd ⟨hlt, he⟩
        rw [← hp]
        exact le_of_not_lt hnlt
      · injection hq with hq
        rw [← hp, ← hq]

lemma nfold_spec (lat lon maxd : ℚ) (l : List Entity) :
    ∀ (acc : Option (Entity × ℝ)),
      (∀ p : Entity × ℝ, acc = some p →
        p.2 = _haversine_distance lat lon p.1.lat p.1.lon ∧ p.2 ≤ (maxd : ℝ)) →
      ((l.foldl (nstep lat lon maxd) acc = none →
          acc = none ∧
            ∀ e ∈ l, ¬(_haversine_distance lat lon e.lat e.lon ≤ (maxd : ℝ))) ∧
       (∀ p : Entity × ℝ, l.foldl (nstep lat lon maxd) acc = some p →
          (p.2 = _haversine_distance lat lon p.1.lat p.1.lon ∧ p.2 ≤ (maxd : ℝ)) ∧
          (acc = some p ∨ p.1 ∈ l) ∧
          (∀ e ∈ l, _haversine_distance lat lon e.lat e.lon ≤ (maxd : ℝ) →
            p.2 ≤ _haversine_distance lat lon e.lat e.lon) ∧
          (∀ q : Entity × ℝ, acc = some q → p.2 ≤ q.2))) := by
  induction l with
  | nil =>
    intro acc hinv
    constructor
    · intro h
      rw [List.foldl_nil] at h
      exact ⟨h, fun e he => absurd he (List.not_mem_nil e)⟩
    · intro p hp
      rw [List.foldl_nil] at hp
      refine ⟨hinv p hp, Or.inl hp,
        fun e he => absurd he (List.not_mem_nil e), fun q hq => ?_⟩
      rw [hp] at hq
      injection hq with hq
      rw [hq]
  | cons e t ih =>
    intro acc hinv
    have hc := nstep_cases lat lon maxd acc e
    have hinv' : ∀ p : Entity × ℝ, nstep lat lon maxd acc e = some p →
        p.2 = _haversine_distance lat lon p.1.lat p.1.lon ∧ p.2 ≤ (maxd : ℝ) := by
      intro p hp
      rcases (hc.2 p hp).1 with hacc | ⟨h1, h2, h3⟩
      · exact hinv p hacc
      · exact ⟨by rw [h2, h1], by rw [h2]; exact h3⟩
    have ihres := ih (nstep lat lon maxd acc e) hinv'
    constructor
    · intro h
      rw [List.foldl_cons] at h
      have h' := ihres.1 h
      have hnone := hc.1 h'.1
      refine ⟨hnone.1, fun x hx => ?_⟩
      rcases List.mem_cons.mp hx with rfl | hxt
      · exact hnone.2
      · exact h'.2 x hxt
    · intro p hp
      rw [List.foldl_cons] at hp
      obtain ⟨hsound, hsrc, hmin, hmono⟩ := ihres.2 p hp
      refine ⟨hsound, ?_, ?_, ?_⟩
      · rcases hsrc with hacc' | hpt
        · rcases (hc.2 p hacc').1 with hacc | ⟨h1, _, _⟩
          · exact Or.inl hacc
          · exact Or.inr (by rw [h1]; exact List.mem_cons_self _ _)
        · exact Or.inr (List.mem_cons_of_mem _ hpt)
      · intro x hx hxle
        rcases List.mem_cons.mp hx with rfl | hxt
        · cases hacc' : nstep lat lon maxd acc x with
          | none => exact absurd hxle (hc.1 hacc').2
          | some q' =>
            exact le_trans (hmono q' hacc') ((hc.2 q' hacc').2.1 hxle)
        · exact hmin x hxt hxle
      · intro q hq
        cases hacc' : nstep lat lon maxd acc e with
        | none => exact Option.noConfusion ((hc.1 hacc').1 ▸ hq)
        | some q' =>
          exact le_trans (hmono q' hacc') ((hc.2 q' hacc').2.2 q hq)

lemma find_nearest_none_iff (idx : SpatialIndex) (lat lon maxd : ℚ) :
    idx.find_nearest lat lon maxd = none ↔
      ∀ e ∈ idx.scanList lat lon maxd,
        ¬(_haversine_distance lat lon e.lat e.lon ≤ (maxd : ℝ)) := by
  unfold find_nearest
  rw [Option.map_eq_none']
  have hspec := nfold_spec lat lon maxd (idx.scanList lat lon maxd) none
    (fun p hp => Option.noConfusion hp)
  constructor
  · intro h
    exact (hspec.1 h).2
  · intro h
    cases hfold : (idx.scanList lat lon maxd).foldl (nstep lat lon maxd) none with
    | none => rfl
    | some p =>
      obtain ⟨⟨hd, hle⟩, hsrc, _, _⟩ := hspec.2 p hfold
      rcases hsrc with hacc | hmem
      · exact Option.noConfusion hacc
      · exact absurd (hd ▸ hle) (h p.1 hmem)

lemma find_nearest_some_spec {idx : SpatialIndex} {lat lon maxd : ℚ} {b : Entity}
    (h : idx.find_nearest lat lon maxd = some b) :
    b ∈ idx.scanList lat lon maxd ∧
      _haversine_distance lat lon b.lat b.lon ≤ (maxd : ℝ) ∧
      ∀ e ∈ idx.scanList lat lon maxd,
        _haversine_distance lat lon e.lat e.lon ≤ (maxd : ℝ) →
          _haversine_distance lat lon b.lat b.lon ≤
            _haversine_distance lat lon e.lat e.lon := by
  unfold find_nearest at h
  rw [Option.map_eq_some'] at h
  obtain ⟨p, hp, hpb⟩ := h
  obtain ⟨⟨hd, hle⟩, hsrc, hmin, _⟩ :=
    (nfold_spec lat lon maxd (idx.scanList lat lon maxd) none
      (fun p hp => Option.noConfusion hp)).2 p hp
  rcases hsrc with hacc | hmem
  · exact Option.noConfusion hacc
  · subst hpb
    refine ⟨hmem, hd ▸ hle, fun e he hele => ?_⟩
    exact hd ▸ hmin e he hele

lemma org_find_nearest : (ofInserts 1 ins0).find_nearest 0 0 0 = some e0 := by
  unfold find_nearest
  rw [org_scan]
  have hd : _haversine_distance 0 0 e0.lat e0.lon ≤ ((0 : ℚ) : ℝ) := by
    show _haversine_distance 0 0 0 0 ≤ ((0 : ℚ) : ℝ)
    rw [hav_self]
    norm_num
  rw [List.foldl_cons, List.foldl_nil]
  simp only [nstep]
  rw [if_pos hd]
  rfl

end SpatialIndex

/-!
### Claims about `find_within` and `find_nearest`
-/

/-- C1 (amended): every entity returned by `find_within` is one of the
inserted entities and its haversine distance to the query point is at
most `radius_km`; in particular with `radius_km = 0` every returned
entity is at haversine distance exactly 0.  (The converse inclusion —
that every inserted entity within the radius is returned — fails, see
`find_within_misses_pole_entity`.) -/
theorem find_within_sound_subset (cell_size : ℚ) (inserts : List (ℚ × ℚ × Payload))
    (lat lon radius_km : ℚ) (e : Entity)
    (hmem : e ∈ (ofInserts cell_size inserts).find_within lat lon radius_km) :
    e ∈ entitiesOf inserts ∧
      SpatialIndex._haversine_distance lat lon e.lat e.lon ≤ (radius_km : ℝ) ∧
      (radius_km = 0 → SpatialIndex._haversine_distance lat lon e.lat e.lon = 0) := by
  obtain ⟨hscan, hdist⟩ := SpatialIndex.mem_find_within.mp hmem
  refine ⟨SpatialIndex.mem_scan_ofInserts hscan, hdist, fun h0 => ?_⟩
  subst h0
  exact le_antisymm (by simpa using hdist) (SpatialIndex.hav_nonneg _ _ _ _)

/-- Witness for C1's theorem at a concrete input: the entity inserted at
the origin is returned by `find_within` at radius 0 and satisfies the
conclusion. -/
theorem find_within_sound_subset_witness :
    e0 ∈ (ofInserts 1 ins0).find_within 0 0 0 ∧
      (e0 ∈ entitiesOf ins0 ∧
        SpatialIndex._haversine_distance 0 0 e0.lat e0.lon ≤ ((0 : ℚ) : ℝ) ∧
        ((0 : ℚ) = 0 → SpatialIndex._haversine_distance 0 0 e0.lat e0.lon = 0)) := by
  have hmem : e0 ∈ (ofInserts 1 ins0).find_within 0 0 0 := by
    rw [SpatialIndex.org_find_within]
    exact List.mem_singleton.mpr rfl
  exact ⟨hmem, find_within_sound_subset 1 ins0 0 0 0 e0 hmem⟩

/-- C1 counterexample: with cell size 1 (> 0), an entity inserted at
latitude 89.9 and longitude 180 lies within 50 km of the query point
(89.9, 0) — the true haversine distance is 6371·π/900 ≈ 22.2 km — yet
`find_within` with radius 50 returns the empty list, because the
entity's grid cell (89, 180) lies outside the scanned square of cells.
So `find_within` does not return every inserted entity within the
radius. -/
theorem find_within_misses_pole_entity :
    eP ∈ entitiesOf polIns ∧
      SpatialIndex._haversine_distance (899/10) 0 eP.lat eP.lon ≤ ((50 : ℚ) : ℝ) ∧
      eP ∉ (ofInserts 1 polIns).find_within (899/10) 0 50 := by
  refine ⟨?_, ?_, ?_⟩
  · show eP ∈ [SpatialIndex.storedEntity (899/10) 180 p0]
    exact List.mem_singleton.mpr rfl
  · show SpatialIndex._haversine_distance (899/10) 0 (899/10) 180 ≤ ((50 : ℚ) : ℝ)
    have hc : ((50 : ℚ) : ℝ) = 50 := by norm_num
    rw [hc]
    exact SpatialIndex.pole_dist_le
  · intro hmem
    have h := (SpatialIndex.mem_find_within.mp hmem).1
    rw [SpatialIndex.pole_scan] at h
    exact List.not_mem_nil eP h

/-- C2 (amended): `find_nearest` returns `None` exactly when no entity
in the scanned square of grid cells lies within `max_distance_km`;
otherwise it returns an inserted entity within `max_distance_km` whose
distance is minimal among the scanned entities that are within
`max_distance_km`.  (Minimality over all inserted entities fails:
entities outside the scanned square are ignored even when they are the
true nearest, see `find_nearest_misses_pole_entity`.) -/
theorem find_nearest_scan_characterization (cell_size : ℚ)
    (inserts : List (ℚ × ℚ × Payload)) (lat lon max_distance_km : ℚ) :
    ((ofInserts cell_size inserts).find_nearest lat lon max_distance_km = none ↔
      ∀ e ∈ (ofInserts cell_size inserts).scanList lat lon max_distance_km,
        ¬(SpatialIndex._haversine_distance lat lon e.lat e.lon ≤ (max_distance_km : ℝ))) ∧
    (∀ b : Entity,
      (ofInserts cell_size inserts).find_nearest lat lon max_distance_km = some b →
        b ∈ entitiesOf inserts ∧
          SpatialIndex._haversine_distance lat lon b.lat b.lon ≤ (max_distance_km : ℝ) ∧
          ∀ e ∈ (ofInserts cell_size inserts).scanList lat lon max_distance_km,
            SpatialIndex._haversine_distance lat lon e.lat e.lon ≤ (max_distance_km : ℝ) →
              SpatialIndex._haversine_distance lat lon b.lat b.lon ≤
                SpatialIndex._haversine_distance lat lon e.lat e.lon) := by
  refine ⟨SpatialIndex.find_nearest_none_iff _ lat lon max_distance_km, fun b hb => ?_⟩
  obtain ⟨hscan, hle, hmin⟩ := SpatialIndex.find_nearest_some_spec hb
  exact ⟨SpatialIndex.mem_scan_ofInserts hscan, hle, hmin⟩

/-- Witness for C2's theorem at a concrete input: for the index holding
one entity at the origin and a query at the origin with
`max_distance_km = 0`, `find_nearest` returns that entity and the
characterization applies to it. -/
theorem find_nearest_scan_characterization_witness :
    (ofInserts 1 ins0).find_nearest 0 0 0 = some e0 ∧
      (e0 ∈ entitiesOf ins0 ∧
        SpatialIndex._haversine_distance 0 0 e0.lat e0.lon ≤ ((0 : ℚ) : ℝ) ∧
        ∀ e ∈ (ofInserts 1 ins0).scanList 0 0 0,
          SpatialIndex._haversine_distance 0 0 e.lat e.lon ≤ ((0 : ℚ) : ℝ) →
            SpatialIndex._haversine_distance 0 0 e0.lat e0.lon ≤
              SpatialIndex._haversine_distance 0 0 e.lat e.lon) := by
  have h := SpatialIndex.org_find_nearest
  exact ⟨h, (find_nearest_scan_characterization 1 ins0 0 0 0).2 e0 h⟩

/-- C2 counterexample: with the pole entity inserted (distance ≈ 22.2 km
≤ 50 km from the query point), the minimum haversine distance over all
inserted entities does not exceed `max_distance_km = 50`, yet
`find_nearest` returns `None` — contradicting the claim that in this
case it returns an entity of minimal distance. -/
theorem find_nearest_misses_pole_entity :
    eP ∈ entitiesOf polIns ∧
      SpatialIndex._haversine_distance (899/10) 0 eP.lat eP.lon ≤ ((50 : ℚ) : ℝ) ∧
      (ofInserts 1 polIns).find_nearest (899/10) 0 50 = none := by
  refine ⟨?_, ?_, ?_⟩
  · show eP ∈ [SpatialIndex.storedEntity (899/10) 180 p0]
    exact List.mem_singleton.mpr rfl
  · show SpatialIndex._haversine_distance (899/10) 0 (899/10) 180 ≤ ((50 : ℚ) : ℝ)
    have hc : ((50 : ℚ) : ℝ) = 50 := by norm_num
    rw [hc]
    exact SpatialIndex.pole_dist_le
  · unfold SpatialIndex.find_nearest
    rw [SpatialIndex.pole_scan]
    rfl

/-- C9 (amended): a returned nearest entity is an inserted entity whose
distance is at most `max_distance_km` — the comparison in the code is
`dist <= max_distance_km`, not strict, so entities at distance exactly
`max_distance_km` can be returned (see
`find_nearest_returns_at_exact_max`). -/
theorem find_nearest_le_max (cell_size : ℚ) (inserts : List (ℚ × ℚ × Payload))
    (lat lon max_distance_km : ℚ) (b : Entity)
    (h : (ofInserts cell_size inserts).find_nearest lat lon max_distance_km = some b) :
    b ∈ entitiesOf inserts ∧
      SpatialIndex._haversine_distance lat lon b.lat b.lon ≤ (max_distance_km : ℝ) := by
  obtain ⟨hscan, hle, _⟩ := SpatialIndex.find_nearest_some_spec h
  exact ⟨SpatialIndex.mem_scan_ofInserts hscan, hle⟩

/-- Witness for C9's theorem at a concrete input. -/
theorem find_nearest_le_max_witness :
    (ofInserts 1 ins0).find_nearest 0 0 0 = some e0 ∧
      (e0 ∈ entitiesOf ins0 ∧
        SpatialIndex._haversine_distance 0 0 e0.lat e0.lon ≤ ((0 : ℚ) : ℝ)) := by
  have h := SpatialIndex.org_find_nearest
  exact ⟨h, find_nearest_le_max 1 ins0 0 0 0 e0 h⟩

/-- C9 counterexample: an entity at haversine distance exactly equal to
`max_distance_km` (here both are 0) is returned by `find_nearest`, so
the returned entity's distance is not always strictly less than
`max_distance_km`. -/
theorem find_nearest_returns_at_exact_max :
    (ofInserts 1 ins0).find_nearest 0 0 0 = some e0 ∧
      SpatialIndex._haversine_distance 0 0 e0.lat e0.lon = ((0 : ℚ) : ℝ) := by
  refine ⟨SpatialIndex.org_find_nearest, ?_⟩
  show SpatialIndex._haversine_distance 0 0 0 0 = ((0 : ℚ) : ℝ)
  rw [SpatialIndex.hav_self]
  norm_num

/-!
### Scan-window membership and the `add` / `__init__` claims
-/

namespace SpatialIndex

lemma mem_intRange {n x : ℤ} : x ∈ intRange n ↔ -n ≤ x ∧ x ≤ n := by
  constructor
  · intro hx
    obtain ⟨i, hi, hix⟩ := List.mem_map.mp hx
    have hir : i < (2 * n + 1).toNat := List.mem_range.mp hi
    omega
  · intro h
    apply List.mem_map.mpr
    refine ⟨(x + n).toNat, List.mem_range.mpr ?_, ?_⟩
    · omega
    · omega

lemma mem_scanList_iff {idx : SpatialIndex} {lat lon r : ℚ} {e : Entity} :
    e ∈ idx.scanList lat lon r ↔
      ∃ dx ∈ intRange (idx.cellsToCheck r), ∃ dy ∈ intRange (idx.cellsToCheck r),
        e ∈ idx.grid ((idx._get_cell lat lon).1 + dx, (idx._get_cell lat lon).2 + dy) := by
  unfold scanList
  simp only [List.mem_flatMap]

lemma zero_mem_cellsToCheck {idx : SpatialIndex} {r : ℚ} (hr : 0 ≤ r / 111 / idx.cell_size) :
    (0 : ℤ) ∈ intRange (idx.cellsToCheck r) := by
  rw [mem_intRange]
  have h := Int.ceil_nonneg hr
  unfold cellsToCheck
  omega

lemma mem_grid_add_self (idx : SpatialIndex) (lat lon : ℚ) (d : Payload) :
    storedEntity lat lon d ∈
      (idx.add lat lon d).grid
        (((idx.add lat lon d)._get_cell lat lon).1 + 0,
          ((idx.add lat lon d)._get_cell lat lon).2 + 0) := by
  have hcell : ((idx.add lat lon d)._get_cell lat lon) = idx._get_cell lat lon := rfl
  rw [hcell]
  show storedEntity lat lon d ∈
    (if ((idx._get_cell lat lon).1 + 0, (idx._get_cell lat lon).2 + 0)
        = idx._get_cell lat lon
      then idx.grid _ ++ [storedEntity lat lon d] else idx.grid _)
  rw [if_pos (by simp)]
  exact List.mem_append.mpr (Or.inr (List.mem_singleton.mpr rfl))

lemma mem_find_within_self (cs lat lon : ℚ) (d : Payload) :
    storedEntity lat lon d ∈
      ((init cs).add lat lon d).find_within lat lon 0 ↔
        _haversine_distance lat lon (d.plat.getD lat) (d.plon.getD lon) ≤ (0 : ℝ) := by
  rw [mem_find_within]
  constructor
  · intro h
    exact le_trans h.2 (by norm_num)
  · intro h
    refine ⟨?_, le_trans h (by norm_num)⟩
    rw [mem_scanList_iff]
    have h0 : (0 : ℤ) ∈ intRange (((init cs).add lat lon d).cellsToCheck 0) :=
      zero_mem_cellsToCheck (by norm_num)
    exact ⟨0, h0, 0, h0, mem_grid_add_self _ lat lon d⟩

end SpatialIndex

/-- C8 (amended): the `SpatialIndex` constructor performs no validation
at all: any `cell_size`, including negative ones, is accepted and simply
stored alongside an empty grid, and the resulting index remains fully
functional (an added entity is found again by `find_within`).  There is
no construction-time failure for non-positive `cell_size`; the only
later failure in the Python code is a `ZeroDivisionError` in
`_get_cell` for `cell_size = 0` exactly. -/
theorem spatial_index_init_no_validation (cell_size lat lon : ℚ) (t : ℕ)
    (hneg : cell_size < 0) :
    (SpatialIndex.init cell_size).cell_size = cell_size ∧
      (∀ c, (SpatialIndex.init cell_size).grid c = []) ∧
      (⟨lat, lon, ⟨none, none, t⟩⟩ : Entity) ∈
        ((SpatialIndex.init cell_size).add lat lon ⟨none, none, t⟩).find_within
          lat lon 0 := by
  refine ⟨rfl, fun c => rfl, ?_⟩
  rw [show (⟨lat, lon, ⟨none, none, t⟩⟩ : Entity)
      = SpatialIndex.storedEntity lat lon ⟨none, none, t⟩ from rfl]
  rw [SpatialIndex.mem_find_within_self]
  show SpatialIndex._haversine_distance lat lon lat lon ≤ (0 : ℝ)
  rw [SpatialIndex.hav_self]

/-- Witness for C8's theorem at a concrete input: `cell_size = -1`. -/
theorem spatial_index_init_no_validation_witness :
    (-1 : ℚ) < 0 ∧
      ((SpatialIndex.init (-1)).cell_size = -1 ∧
        (∀ c, (SpatialIndex.init (-1)).grid c = []) ∧
        (⟨0, 0, ⟨none, none, 0⟩⟩ : Entity) ∈
          ((SpatialIndex.init (-1)).add 0 0 ⟨none, none, 0⟩).find_within 0 0 0) :=
  ⟨by norm_num, spatial_index_init_no_validation (-1) 0 0 0 (by norm_num)⟩

/-- C8 counterexample: constructing a `SpatialIndex` with the
non-positive `cell_size = -1` does not fail at the construction call
site — `__init__` contains no check, the value is stored as-is, and the
index even continues to work (the entity added at (5, 7) is returned by
a radius-0 query there).  This contradicts the claim that non-positive
`cell_size` is rejected by the constructor. -/
theorem spatial_index_init_accepts_nonpositive :
    (SpatialIndex.init (-1)).cell_size = -1 ∧
      (⟨5, 7, p0⟩ : Entity) ∈
        ((SpatialIndex.init (-1)).add 5 7 p0).find_within 5 7 0 := by
  refine ⟨rfl, ?_⟩
  rw [show (⟨5, 7, p0⟩ : Entity) = SpatialIndex.storedEntity 5 7 p0 from rfl]
  rw [SpatialIndex.mem_find_within_self]
  show SpatialIndex._haversine_distance 5 7 5 7 ≤ (0 : ℝ)
  rw [SpatialIndex.hav_self]

/-- C10: `add` stores the merged dict `{"lat": lat, "lon": lon, **data}`
— so a `"lat"`/`"lon"` key of the payload overrides the coordinate
arguments in the stored entity (and absent keys leave the arguments in
place, since `Option.getD` falls back to them) — while the entity is
bucketed in the cell computed from the original coordinate arguments;
queries then measure distance against the stored (payload) coordinates. -/
theorem add_payload_override_semantics (idx : SpatialIndex) (lat lon : ℚ)
    (d : Payload) (r : ℚ) (hcs : 0 < idx.cell_size) (hr : 0 ≤ r) :
    ((idx.add lat lon d).grid (idx._get_cell lat lon) =
        idx.grid (idx._get_cell lat lon) ++ [⟨d.plat.getD lat, d.plon.getD lon, d⟩]) ∧
      (∀ c, c ≠ idx._get_cell lat lon → (idx.add lat lon d).grid c = idx.grid c) ∧
      (SpatialIndex.storedEntity lat lon d ∈ (idx.add lat lon d).find_within lat lon r ↔
        SpatialIndex._haversine_distance lat lon (d.plat.getD lat) (d.plon.getD lon)
          ≤ (r : ℝ)) := by
  refine ⟨?_, fun c hc => ?_, ?_⟩
  · show (if idx._get_cell lat lon = idx._get_cell lat lon
        then idx.grid _ ++ [SpatialIndex.storedEntity lat lon d] else idx.grid _) = _
    rw [if_pos rfl]
    rfl
  · show (if c = idx._get_cell lat lon
        then idx.grid c ++ [SpatialIndex.storedEntity lat lon d] else idx.grid c) = _
    rw [if_neg hc]
  · rw [SpatialIndex.mem_find_within]
    constructor
    · intro h
      exact h.2
    · intro h
      refine ⟨?_, h⟩
      rw [SpatialIndex.mem_scanList_iff]
      have h0 : (0 : ℤ) ∈ SpatialIndex.intRange ((idx.add lat lon d).cellsToCheck r) :=
        SpatialIndex.zero_mem_cellsToCheck
          (by positivity)
      exact ⟨0, h0, 0, h0, SpatialIndex.mem_grid_add_self idx lat lon d⟩

/-- Witness for C10's theorem at a concrete input: a payload overriding
both coordinates to (0, 0), added at arguments (5, 5) into a unit-cell
index, with a radius-0 query at (5, 5). -/
theorem add_payload_override_semantics_witness :
    (0 : ℚ) < (SpatialIndex.init 1).cell_size ∧
      (((SpatialIndex.init 1).add 5 5 ⟨some 0, some 0, 3⟩).grid
          ((SpatialIndex.init 1)._get_cell 5 5) =
        (SpatialIndex.init 1).grid ((SpatialIndex.init 1)._get_cell 5 5)
          ++ [⟨(Option.getD (some 0) 5 : ℚ), (Option.getD (some 0) 5 : ℚ), ⟨some 0, some 0, 3⟩⟩]) ∧
      (∀ c, c ≠ (SpatialIndex.init 1)._get_cell 5 5 →
        ((SpatialIndex.init 1).add 5 5 ⟨some 0, some 0, 3⟩).grid c
          = (SpatialIndex.init 1).grid c) ∧
      (SpatialIndex.storedEntity 5 5 ⟨some 0, some 0, 3⟩ ∈
          ((SpatialIndex.init 1).add 5 5 ⟨some 0, some 0, 3⟩).find_within 5 5 0 ↔
        SpatialIndex._haversine_distance 5 5 (Option.getD (some 0) 5)
          (Option.getD (some 0) 5) ≤ ((0 : ℚ) : ℝ)) := by
  have hcs : (0 : ℚ) < (SpatialIndex.init 1).cell_size := by
    rw [show (SpatialIndex.init 1).cell_size = (1 : ℚ) from rfl]
    norm_num
  have h := add_payload_override_semantics (SpatialIndex.init 1) 5 5
    ⟨some 0, some 0, 3⟩ 0 hcs (by norm_num)
  exact ⟨hcs, h.1, h.2.1, h.2.2⟩

/-!
### Deduplication claims
-/

lemma dedup_pair {V : Type} (A B : Rec V) (hid : A.id = B.id) :
    deduplicate_locations [A, B] = [mergeRec A B] := by
  unfold deduplicate_locations
  rw [List.foldl_cons, List.foldl_cons, List.foldl_nil]
  have h1 : dedupStep [] A = [(A.id, A)] := by
    unfold dedupStep
    simp [List.lookup]
  rw [h1]
  have h2 : dedupStep [(A.id, A)] B = [(A.id, mergeRec A B)] := by
    unfold dedupStep
    simp [List.lookup, hid]
  rw [h2]
  rfl

lemma mergeRec_self {V : Type} (A : Rec V) : mergeRec A A = A := by
  obtain ⟨i, f⟩ := A
  unfold mergeRec
  have hf : (fun k => match f k with | some v => some v | none => f k) = f := by
    funext k
    cases hfk : f k
    · rfl
    · rfl
  rw [hf]

lemma mergeRec_comm_of_disjoint {V : Type} (A B : Rec V) (hid : A.id = B.id)
    (hdisj : ∀ k, A.fields k = none ∨ B.fields k = none) :
    mergeRec A B = mergeRec B A := by
  unfold mergeRec
  have hf : (fun k => match A.fields k with | some v => some v | none => B.fields k)
      = (fun k => match B.fields k with | some v => some v | none => A.fields k) := by
    funext k
    rcases hdisj k with h | h
    · rw [h]
      cases hb : B.fields k
      · rfl
      · rfl
    · rw [h]
      cases ha : A.fields k
      · rfl
      · rfl
  rw [hf, hid]

/-- C3: when `deduplicate_locations` merges two records sharing an id,
the result is the field-by-field merge in which, for every field, the
first record's non-null value is kept (never overwritten by the later
record), and a null field of the first record takes the later record's
value — i.e. first-non-null-wins in processing order. -/
theorem dedup_merge_first_non_null {V : Type} (A B : Rec V) (hid : A.id = B.id) :
    deduplicate_locations [A, B] = [mergeRec A B] ∧
      ∀ k : String,
        (∀ v, A.fields k = some v → (mergeRec A B).fields k = some v) ∧
        (A.fields k = none → (mergeRec A B).fields k = B.fields k) := by
  refine ⟨dedup_pair A B hid, fun k => ⟨fun v hv => ?_, fun hn => ?_⟩⟩
  · unfold mergeRec
    dsimp only
    rw [hv]
  · unfold mergeRec
    dsimp only
    rw [hn]

/-- Witness for C3's theorem at a concrete input: two records with id
`"x"`, the first with `name = 1`, the second with `name = 2` and
`era = 3`; the merge keeps `name = 1` and fills `era = 3`. -/
theorem dedup_merge_first_non_null_witness :
    (deduplicate_locations
        [(⟨"x", fun k => if k = "name" then some 1 else none⟩ : Rec ℕ),
          ⟨"x", fun k => if k = "name" then some 2 else
            if k = "era" then some 3 else none⟩]
      = [mergeRec (⟨"x", fun k => if k = "name" then some 1 else none⟩ : Rec ℕ)
          ⟨"x", fun k => if k = "name" then some 2 else
            if k = "era" then some 3 else none⟩]) ∧
      (mergeRec (⟨"x", fun k => if k = "name" then some 1 else none⟩ : Rec ℕ)
          ⟨"x", fun k => if k = "name" then some 2 else
            if k = "era" then some 3 else none⟩).fields "name" = some 1 ∧
      (mergeRec (⟨"x", fun k => if k = "name" then some 1 else none⟩ : Rec ℕ)
          ⟨"x", fun k => if k = "name" then some 2 else
            if k = "era" then some 3 else none⟩).fields "era" = some 3 := by
  have h := dedup_merge_first_non_null
    (⟨"x", fun k => if k = "name" then some 1 else none⟩ : Rec ℕ)
    ⟨"x", fun k => if k = "name" then some 2 else
      if k = "era" then some 3 else none⟩ rfl
  refine ⟨h.1, (h.2 "name").1 1 (by simp), ?_⟩
  have he := (h.2 "era").2 (by simp)
  rw [he]
  simp

/-- C5: merging a record with itself through `deduplicate_locations`
yields the identical record, and for two records with the same id whose
non-null fields are disjoint the merge is order-independent and the
result carries every non-null field of either record. -/
theorem dedup_idempotent_and_disjoint_comm {V : Type} :
    (∀ A : Rec V, deduplicate_locations [A, A] = [A]) ∧
    (∀ A B : Rec V, A.id = B.id →
      (∀ k, A.fields k = none ∨ B.fields k = none) →
        deduplicate_locations [A, B] = deduplicate_locations [B, A] ∧
        (∀ k v, A.fields k = some v ∨ B.fields k = some v →
          (mergeRec A B).fields k = some v)) := by
  constructor
  · intro A
    rw [dedup_pair A A rfl, mergeRec_self]
  · intro A B hid hdisj
    constructor
    · rw [dedup_pair A B hid, dedup_pair B A hid.symm,
        mergeRec_comm_of_disjoint A B hid hdisj]
    · intro k v hv
      rcases hv with hv | hv
      · unfold mergeRec
        dsimp only
        rw [hv]
      · rcases hdisj k with h | h
        · unfold mergeRec
          dsimp only
          rw [h, hv]
        · rw [h] at hv
          exact Option.noConfusion hv

/-- Witness for C5's theorem at a concrete input: a record merged with
itself, and two disjoint-field records (`name = 1` only / `era = 2`
only) merged in both orders. -/
theorem dedup_idempotent_and_disjoint_comm_witness :
    (deduplicate_locations
        [(⟨"x", fun k => if k = "name" then some 1 else none⟩ : Rec ℕ),
          ⟨"x", fun k => if k = "name" then some 1 else none⟩]
      = [(⟨"x", fun k => if k = "name" then some 1 else none⟩ : Rec ℕ)]) ∧
      (deduplicate_locations
          [(⟨"x", fun k => if k = "name" then some 1 else none⟩ : Rec ℕ),
            ⟨"x", fun k => if k = "era" then some 2 else none⟩]
        = deduplicate_locations
            [(⟨"x", fun k => if k = "era" then some 2 else none⟩ : Rec ℕ),
              ⟨"x", fun k => if k = "name" then some 1 else none⟩]) ∧
      (mergeRec (⟨"x", fun k => if k = "name" then some 1 else none⟩ : Rec ℕ)
          ⟨"x", fun k => if k = "era" then some 2 else none⟩).fields "name"
        = some 1 ∧
      (mergeRec (⟨"x", fun k => if k = "name" then some 1 else none⟩ : Rec ℕ)
          ⟨"x", fun k => if k = "era" then some 2 else none⟩).fields "era"
        = some 2 := by
  have hdisj : ∀ k : String,
      (if k = "name" then some (1 : ℕ) else none) = none ∨
        (if k = "era" then some (2 : ℕ) else none) = none := by
    intro k
    rcases eq_or_ne k "name" with rfl | hk
    · right
      simp
    · left
      rw [if_neg hk]
  have h := dedup_idempotent_and_disjoint_comm (V := ℕ)
  have h2 := h.2 (⟨"x", fun k => if k = "name" then some 1 else none⟩ : Rec ℕ)
    ⟨"x", fun k => if k = "era" then some 2 else none⟩ rfl hdisj
  exact ⟨h.1 _, h2.1, h2.2 "name" 1 (Or.inl (by simp)), h2.2 "era" 2 (Or.inr (by simp))⟩

/-!
### Aggregation claims (`transform_locations`)
-/

lemma agg_inv {V : Type} (L : List (Rec V)) :
    ∀ acc : List (Rec V) × List String,
      ((acc.1.map Rec.id).Nodup ∧ ∀ s, s ∈ acc.1.map Rec.id ↔ s ∈ acc.2) →
      (((L.foldl aggStep acc).1.map Rec.id).Nodup ∧
        (∀ s, s ∈ (L.foldl aggStep acc).1.map Rec.id ↔ s ∈ (L.foldl aggStep acc).2)) ∧
      (∀ loc ∈ L, loc.id ∈ (L.foldl aggStep acc).1.map Rec.id) ∧
      (∀ s, s ∈ acc.1.map Rec.id → s ∈ (L.foldl aggStep acc).1.map Rec.id) := by
  induction L with
  | nil =>
    intro acc h
    rw [List.foldl_nil]
    exact ⟨h, fun loc hl => absurd hl (List.not_mem_nil loc), fun s hs => hs⟩
  | cons e t ih =>
    intro acc h
    rw [List.foldl_cons]
    have hstep : ((aggStep acc e).1.map Rec.id).Nodup ∧
        (∀ s, s ∈ (aggStep acc e).1.map Rec.id ↔ s ∈ (aggStep acc e).2) ∧
        e.id ∈ (aggStep acc e).1.map Rec.id ∧
        (∀ s, s ∈ acc.1.map Rec.id → s ∈ (aggStep acc e).1.map Rec.id) := by
      unfold aggStep
      by_cases hc : e.id ∈ acc.2
      · rw [if_pos hc]
        exact ⟨h.1, h.2, (h.2 e.id).mpr hc, fun s hs => hs⟩
      · rw [if_neg hc]
        have hnotin : e.id ∉ acc.1.map Rec.id := fun hin => hc ((h.2 e.id).mp hin)
        refine ⟨?_, ?_, ?_, ?_⟩
        · show ((acc.1 ++ [e]).map Rec.id).Nodup
          rw [List.map_append]
          refine List.Nodup.append h.1 (List.nodup_singleton e.id) ?_
          intro a ha hae
          have hax : a = e.id := by simpa using hae
          rw [hax] at ha
          exact hnotin ha
        · intro s
          show s ∈ (acc.1 ++ [e]).map Rec.id ↔ s ∈ e.id :: acc.2
          rw [List.map_append, List.mem_append, List.mem_cons]
          constructor
          · rintro (hs | hs)
            · exact Or.inr ((h.2 s).mp hs)
            · exact Or.inl (List.mem_singleton.mp (by simpa using hs))
          · rintro (hs | hs)
            · refine Or.inr ?_
              rw [hs]
              simp
            · exact Or.inl ((h.2 s).mpr hs)
        · show e.id ∈ (acc.1 ++ [e]).map Rec.id
          rw [List.map_append, List.mem_append]
          refine Or.inr ?_
          simp
        · intro s hs
          show s ∈ (acc.1 ++ [e]).map Rec.id
          rw [List.map_append, List.mem_append]
          exact Or.inl hs
    obtain ⟨h1, h2, h3, h4⟩ := hstep
    have ihres := ih (aggStep acc e) ⟨h1, h2⟩
    refine ⟨ihres.1, ?_, ?_⟩
    · intro loc hloc
      rcases List.mem_cons.mp hloc with rfl | hlt
      · exact ihres.2.2 loc.id h3
      · exact ihres.2.1 loc hlt
    · intro s hs
      exact ihres.2.2 s (h4 s hs)

/-- C7: in the output of `transform_locations` every id is unique (no
two output records share an id, across however many sources contributed
records), every input record's id appears, and the output is sorted in
ascending order by id. -/
theorem transform_locations_unique_sorted {V : Type}
    (pleiades orbis topostext : List (Rec V)) :
    ((transform_locations pleiades orbis topostext).map Rec.id).Nodup ∧
      List.Sorted (· ≤ ·) ((transform_locations pleiades orbis topostext).map Rec.id) ∧
      ∀ loc : Rec V, loc ∈ pleiades ∨ loc ∈ orbis ∨ loc ∈ topostext →
        loc.id ∈ (transform_locations pleiades orbis topostext).map Rec.id := by
  have hinv0 : ((([] : List (Rec V)), ([] : List String)).1.map Rec.id).Nodup ∧
      ∀ s, s ∈ (([] : List (Rec V)), ([] : List String)).1.map Rec.id ↔
        s ∈ (([] : List (Rec V)), ([] : List String)).2 := by
    exact ⟨List.nodup_nil, fun s => Iff.rfl⟩
  have h1 := agg_inv pleiades _ hinv0
  have h2 := agg_inv orbis _ h1.1
  have h3 := agg_inv topostext _ h2.1
  have hperm : List.Perm
      (List.insertionSort (fun a b : Rec V => a.id ≤ b.id)
        (topostext.foldl aggStep (orbis.foldl aggStep
          (pleiades.foldl aggStep (([] : List (Rec V)), ([] : List String))))).1)
      (topostext.foldl aggStep (orbis.foldl aggStep
        (pleiades.foldl aggStep (([] : List (Rec V)), ([] : List String))))).1 :=
    List.perm_insertionSort _ _
  have hpermids := hperm.map Rec.id
  constructor
  · exact hpermids.symm.nodup h3.1.1
  constructor
  · haveI : IsTotal (Rec V) (fun a b : Rec V => a.id ≤ b.id) :=
      ⟨fun a b => le_total a.id b.id⟩
    haveI : IsTrans (Rec V) (fun a b : Rec V => a.id ≤ b.id) :=
      ⟨fun a b c hab hbc => le_trans hab hbc⟩
    have hs := List.sorted_insertionSort (fun a b : Rec V => a.id ≤ b.id)
      (topostext.foldl aggStep (orbis.foldl aggStep
        (pleiades.foldl aggStep (([] : List (Rec V)), ([] : List String))))).1
    exact List.pairwise_map.mpr hs
  · intro loc hloc
    refine hpermids.symm.mem_iff.mp ?_
    rcases hloc with h | h | h
    · exact h3.2.2 _ (h2.2.2 _ (h1.2.1 loc h))
    · exact h3.2.2 _ (h2.2.1 loc h)
    · exact h3.2.1 loc h

/-- Witness for C7's theorem at a concrete input: one Pleiades record
with id `"b"` and one ORBIS record with id `"a"`. -/
theorem transform_locations_unique_sorted_witness :
    ((transform_locations [(⟨"b", fun _ => none⟩ : Rec ℕ)] [⟨"a", fun _ => none⟩] []).map
        Rec.id).Nodup ∧
      List.Sorted (· ≤ ·)
        ((transform_locations [(⟨"b", fun _ => none⟩ : Rec ℕ)] [⟨"a", fun _ => none⟩] []).map
          Rec.id) ∧
      (⟨"b", fun _ => none⟩ : Rec ℕ).id ∈
        (transform_locations [(⟨"b", fun _ => none⟩ : Rec ℕ)] [⟨"a", fun _ => none⟩] []).map
          Rec.id := by
  have h := transform_locations_unique_sorted
    [(⟨"b", fun _ => none⟩ : Rec ℕ)] [⟨"a", fun _ => none⟩] []
  exact ⟨h.1, h.2.1, h.2.2 ⟨"b", fun _ => none⟩
    (Or.inl (List.mem_singleton.mpr rfl))⟩

/-!
### Province-assignment claims (`_assign_provinces`)
-/

lemma bestFold_ne_none (lat lon : ℚ) (l : List (String × ℚ × ℚ)) :
    ∀ acc, l.foldl (bestStep lat lon) acc = none → acc = none ∧ l = [] := by
  induction l with
  | nil =>
    intro acc h
    rw [List.foldl_nil] at h
    exact ⟨h, rfl⟩
  | cons c t ih =>
    intro acc h
    rw [List.foldl_cons] at h
    exfalso
    have h1 := (ih _ h).1
    cases acc with
    | none => exact Option.noConfusion h1
    | some q =>
      obtain ⟨qp, qd⟩ := q
      have h1' : (if sqDist lat lon c.2.1 c.2.2 < qd then
          some (c.1, sqDist lat lon c.2.1 c.2.2) else some (qp, qd)) = none := h1
      split_ifs at h1' <;> exact Option.noConfusion h1'

lemma bestFold_some (lat lon : ℚ) (l : List (String × ℚ × ℚ)) :
    ∀ (acc : Option (String × ℚ)) (bp : String) (bd : ℚ),
      l.foldl (bestStep lat lon) acc = some (bp, bd) →
      (acc = some (bp, bd) ∨
        ∃ c ∈ l, c.1 = bp ∧ bd = sqDist lat lon c.2.1 c.2.2) ∧
      (∀ c ∈ l, bd ≤ sqDist lat lon c.2.1 c.2.2) ∧
      (∀ q : String × ℚ, acc = some q → bd ≤ q.2) := by
  induction l with
  | nil =>
    intro acc bp bd h
    rw [List.foldl_nil] at h
    refine ⟨Or.inl h, fun c hc => absurd hc (List.not_mem_nil c), fun q hq => ?_⟩
    rw [h] at hq
    injection hq with hq
    rw [← hq]
  | cons c t ih =>
    intro acc bp bd h
    rw [List.foldl_cons] at h
    have hstep : ∃ p' : String × ℚ, bestStep lat lon acc c = some p' ∧
        (acc = some p' ∨ (p'.1 = c.1 ∧ p'.2 = sqDist lat lon c.2.1 c.2.2)) ∧
        p'.2 ≤ sqDist lat lon c.2.1 c.2.2 ∧
        (∀ q : String × ℚ, acc = some q → p'.2 ≤ q.2) := by
      cases acc with
      | none =>
        exact ⟨(c.1, sqDist lat lon c.2.1 c.2.2), rfl, Or.inr ⟨rfl, rfl⟩, le_rfl,
          fun q hq => Option.noConfusion hq⟩
      | some q0 =>
        obtain ⟨qp, qd⟩ := q0
        by_cases hlt : sqDist lat lon c.2.1 c.2.2 < qd
        · refine ⟨(c.1, sqDist lat lon c.2.1 c.2.2), ?_, Or.inr ⟨rfl, rfl⟩, le_rfl,
            fun q hq => ?_⟩
          · show (if sqDist lat lon c.2.1 c.2.2 < qd then
                some (c.1, sqDist lat lon c.2.1 c.2.2) else some (qp, qd)) = _
            rw [if_pos hlt]
          · injection hq with hq
            rw [← hq]
            exact le_of_lt hlt
        · refine ⟨(qp, qd), ?_, Or.inl rfl, le_of_not_lt hlt, fun q hq => ?_⟩
          · show (if sqDist lat lon c.2.1 c.2.2 < qd then
                some (c.1, sqDist lat lon c.2.1 c.2.2) else some (qp, qd)) = _
            rw [if_neg hlt]
          · injection hq with hq
            rw [← hq]
    obtain ⟨p', hp', hsrc, hlec, hmono⟩ := hstep
    rw [hp'] at h
    obtain ⟨ihsrc, ihmin, ihmono⟩ := ih (some p') bp bd h
    refine ⟨?_, ?_, ?_⟩
    · rcases ihsrc with hacc' | ⟨c', hc', h1, h2⟩
      · injection hacc' with hacc'
        rcases hsrc with hacc | ⟨h1, h2⟩
        · rw [hacc'] at hacc
          exact Or.inl hacc
        · refine Or.inr ⟨c, List.mem_cons_self c t, ?_, ?_⟩
          · rw [← h1, hacc']
          · rw [← h2, hacc']
      · exact Or.inr ⟨c', List.mem_cons_of_mem c hc', h1, h2⟩
    · intro x hx
      rcases List.mem_cons.mp hx with rfl | hxt
      · exact le_trans (ihmono p' rfl) hlec
      · exact ihmin x hxt
    · intro q hq
      exact le_trans (ihmono p' rfl) (hmono q hq)

lemma assignRecord_of_not_truthy (cents : List (String × ℚ × ℚ)) (loc : LocationRec)
    (hp : truthyStr loc.province_id = false) :
    assignRecord cents loc =
      match bestCentroid cents loc.latitude loc.longitude with
      | none => loc
      | some (bp, bd) =>
          if bp ≠ "" ∧ bd < 100 then { loc with province_id := some bp } else loc := by
  unfold assignRecord
  rw [hp]
  rfl

/-- C4 (amended): for every location record with a falsy `province_id`,
`_assign_provinces` computes the squared planar distance to every
centroid that survives the truthiness filter (provinces whose
`centroid_lat` and `centroid_lon` are both present and nonzero — a
centroid at latitude 0 or longitude 0 is silently dropped, see
`assign_provinces_drops_zero_centroid`); among the surviving centroids,
the id of a minimum-distance one is assigned exactly when that minimum
squared distance is below 100 (assuming centroid ids are non-empty),
and the record is left unchanged when every surviving centroid is at
squared distance at least 100. -/
theorem assign_provinces_threshold (locs : List LocationRec) (provs : List Province)
    (hne : extractCentroids provs ≠ [])
    (hids : ∀ c ∈ extractCentroids provs, c.1 ≠ "") :
    _assign_provinces locs provs = locs.map (assignRecord (extractCentroids provs)) ∧
      ∀ loc : LocationRec, truthyStr loc.province_id = false →
        (((assignRecord (extractCentroids provs) loc).id = loc.id ∧
          (assignRecord (extractCentroids provs) loc).latitude = loc.latitude ∧
          (assignRecord (extractCentroids provs) loc).longitude = loc.longitude) ∧
        ((∃ c ∈ extractCentroids provs,
            sqDist loc.latitude loc.longitude c.2.1 c.2.2 < 100) →
          ∃ c ∈ extractCentroids provs,
            (∀ c' ∈ extractCentroids provs,
              sqDist loc.latitude loc.longitude c.2.1 c.2.2 ≤
                sqDist loc.latitude loc.longitude c'.2.1 c'.2.2) ∧
            sqDist loc.latitude loc.longitude c.2.1 c.2.2 < 100 ∧
            (assignRecord (extractCentroids provs) loc).province_id = some c.1) ∧
        ((∀ c ∈ extractCentroids provs,
            100 ≤ sqDist loc.latitude loc.longitude c.2.1 c.2.2) →
          assignRecord (extractCentroids provs) loc = loc)) := by
  refine ⟨by unfold _assign_provinces; rw [if_neg hne], fun loc hp => ?_⟩
  rw [assignRecord_of_not_truthy _ _ hp]
  cases hbc : bestCentroid (extractCentroids provs) loc.latitude loc.longitude with
  | none =>
    exact absurd (bestFold_ne_none _ _ _ none hbc).2 hne
  | some p =>
    obtain ⟨bp, bd⟩ := p
    dsimp only
    obtain ⟨hsrc, hmin, _⟩ := bestFold_some _ _ _ none bp bd hbc
    rcases hsrc with h | ⟨c, hc, hcp, hcd⟩
    · exact Option.noConfusion h
    refine ⟨?_, ?_, ?_⟩
    · by_cases hb : bp ≠ "" ∧ bd < 100
      · rw [if_pos hb]
        exact ⟨rfl, rfl, rfl⟩
      · rw [if_neg hb]
        exact ⟨rfl, rfl, rfl⟩
    · rintro ⟨c', hc', hc'lt⟩
      have hbd100 : bd < 100 := lt_of_le_of_lt (hmin c' hc') hc'lt
      have hbne : bp ≠ "" := by
        rw [← hcp]
        exact hids c hc
      rw [if_pos ⟨hbne, hbd100⟩]
      exact ⟨c, hc, fun c'' hc'' => by rw [← hcd]; exact hmin c'' hc'',
        by rw [← hcd]; exact hbd100, by rw [hcp]⟩
    · intro hall
      have : ¬(bp ≠ "" ∧ bd < 100) := by
        rintro ⟨-, hlt⟩
        have := hall c hc
        rw [← hcd] at this
        exact absurd hlt (not_lt_of_le this)
      rw [if_neg this]

lemma eval_drop_zero : _assign_provinces [⟨"x", 1/10, 10, none⟩]
      [⟨"eq", some 0, some 10⟩, ⟨"other", some 3, some 10⟩]
    = [⟨"x", 1/10, 10, some "other"⟩] := by
  norm_num [_assign_provinces, extractCentroids, assignRecord, bestCentroid, bestStep,
    truthyStr, sqDist, List.filterMap_cons, List.filterMap_nil, List.foldl_cons,
    List.foldl_nil, List.map_cons, List.map_nil,
    (show ("other" : String) ≠ "" from by decide)]

lemma eval_tie_ab : _assign_provinces [⟨"x", 5, 5, none⟩]
      [⟨"a", some 4, some 5⟩, ⟨"b", some 6, some 5⟩]
    = [⟨"x", 5, 5, some "a"⟩] := by
  norm_num [_assign_provinces, extractCentroids, assignRecord, bestCentroid, bestStep,
    truthyStr, sqDist, List.filterMap_cons, List.filterMap_nil, List.foldl_cons,
    List.foldl_nil, List.map_cons, List.map_nil,
    (show ("a" : String) ≠ "" from by decide),
    (show (("a", (4:ℚ), (5:ℚ)) :: [("b", 6, 5)] : List (String × ℚ × ℚ)) ≠ [] from by simp)]

lemma eval_tie_ba : _assign_provinces [⟨"x", 5, 5, none⟩]
      [⟨"b", some 6, some 5⟩, ⟨"a", some 4, some 5⟩]
    = [⟨"x", 5, 5, some "b"⟩] := by
  norm_num [_assign_provinces, extractCentroids, assignRecord, bestCentroid, bestStep,
    truthyStr, sqDist, List.filterMap_cons, List.filterMap_nil, List.foldl_cons,
    List.foldl_nil, List.map_cons, List.map_nil,
    (show ("b" : String) ≠ "" from by decide),
    (show (("b", (6:ℚ), (5:ℚ)) :: [("a", 4, 5)] : List (String × ℚ × ℚ)) ≠ [] from by simp)]

/-- Witness for C4's theorem at the spec's own example instances: record
`a` at (41, 12) with the single centroid `italia` at (41.5, 12.5) gets
`province_id = "italia"` (squared distance 1/2 < 100), and record `b` at
(10, 80) is left unchanged (squared distance 5548.5 ≥ 100). -/
theorem assign_provinces_threshold_witness :
    (assignRecord (extractCentroids [⟨"italia", some (83/2), some (25/2)⟩])
        ⟨"a", 41, 12, none⟩).province_id = some "italia" ∧
      assignRecord (extractCentroids [⟨"italia", some (83/2), some (25/2)⟩])
        ⟨"b", 10, 80, none⟩ = ⟨"b", 10, 80, none⟩ := by
  have hcents : extractCentroids [⟨"italia", some (83/2), some (25/2)⟩]
      = [("italia", 83/2, 25/2)] := by
    norm_num [extractCentroids, List.filterMap_cons, List.filterMap_nil]
  have hne : extractCentroids [⟨"italia", some (83/2), some (25/2)⟩] ≠ [] := by
    rw [hcents]
    simp
  have hids : ∀ c ∈ extractCentroids [⟨"italia", some (83/2), some (25/2)⟩],
      c.1 ≠ "" := by
    rw [hcents]
    intro c hc
    have hcx : c = ("italia", 83/2, 25/2) := List.mem_singleton.mp hc
    rw [hcx]
    decide
  have h := (assign_provinces_threshold [] _ hne hids).2
  constructor
  · have ha := (h ⟨"a", 41, 12, none⟩ rfl).2.1
    obtain ⟨c, hc, -, -, hpid⟩ := ha ⟨("italia", 83/2, 25/2),
      by rw [hcents]; exact List.mem_singleton.mpr rfl, by norm_num [sqDist]⟩
    rw [hcents] at hc
    have hcx : c = ("italia", 83/2, 25/2) := List.mem_singleton.mp hc
    rw [hcx] at hpid
    exact hpid
  · have hb := (h ⟨"b", 10, 80, none⟩ rfl).2.2
    refine hb ?_
    rw [hcents]
    intro c hc
    have hcx : c = ("italia", 83/2, 25/2) := List.mem_singleton.mp hc
    rw [hcx]
    norm_num [sqDist]

/-- C4 counterexample: a centroid at latitude 0 is silently dropped by
the truthiness filter `if prov.get("centroid_lat") and
prov.get("centroid_lon")`; the record at (0.1, 10) is therefore assigned
the farther centroid `"other"` (squared distance 8.41) instead of the
strictly nearer, within-threshold centroid `"eq"` at (0, 10) (squared
distance 0.01) — contradicting the claim that the distance is computed
to every province centroid in the input and the minimum one assigned. -/
theorem assign_provinces_drops_zero_centroid :
    _assign_provinces [⟨"x", 1/10, 10, none⟩]
        [⟨"eq", some 0, some 10⟩, ⟨"other", some 3, some 10⟩]
      = [⟨"x", 1/10, 10, some "other"⟩] ∧
      sqDist (1/10) 10 0 10 < sqDist (1/10) 10 3 10 ∧
      sqDist (1/10) 10 0 10 < 100 := by
  exact ⟨eval_drop_zero, by norm_num [sqDist], by norm_num [sqDist]⟩

/-- C6 (amended): region assignment is invariant under permutations of
the province list provided that, for every record, no two surviving
centroids with different ids are at exactly equal squared distance from
it; under distance ties the code keeps the first minimum in iteration
order, so permuted inputs can differ (see
`assign_provinces_tie_order_dependent`). -/
theorem assign_provinces_perm_invariant (locs : List LocationRec)
    (provs1 provs2 : List Province) (hperm : List.Perm provs1 provs2)
    (huniq : ∀ loc ∈ locs, ∀ c1 ∈ extractCentroids provs1,
      ∀ c2 ∈ extractCentroids provs1,
        sqDist loc.latitude loc.longitude c1.2.1 c1.2.2
          = sqDist loc.latitude loc.longitude c2.2.1 c2.2.2 → c1.1 = c2.1) :
    _assign_provinces locs provs1 = _assign_provinces locs provs2 := by
  have hcperm : List.Perm (extractCentroids provs1) (extractCentroids provs2) :=
    hperm.filterMap _
  unfold _assign_provinces
  by_cases h1 : extractCentroids provs1 = []
  · have h2 : extractCentroids provs2 = [] := by
      rw [h1] at hcperm
      exact hcperm.symm.eq_nil
    rw [if_pos h1, if_pos h2]
  · have h2 : extractCentroids provs2 ≠ [] := by
      intro hh
      rw [hh] at hcperm
      exact h1 hcperm.eq_nil
    rw [if_neg h1, if_neg h2]
    apply List.map_congr_left
    intro loc hloc
    cases hp : truthyStr loc.province_id with
    | true =>
      unfold assignRecord
      rw [hp, if_pos rfl, if_pos rfl]
    | false =>
      rw [assignRecord_of_not_truthy _ _ hp, assignRecord_of_not_truthy _ _ hp]
      cases hb1 : bestCentroid (extractCentroids provs1) loc.latitude loc.longitude with
      | none => exact absurd (bestFold_ne_none _ _ _ none hb1).2 h1
      | some p1 =>
        cases hb2 : bestCentroid (extractCentroids provs2) loc.latitude loc.longitude with
        | none => exact absurd (bestFold_ne_none _ _ _ none hb2).2 h2
        | some p2 =>
          obtain ⟨bp1, bd1⟩ := p1
          obtain ⟨bp2, bd2⟩ := p2
          obtain ⟨hsrc1, hmin1, -⟩ := bestFold_some _ _ _ none bp1 bd1 hb1
          obtain ⟨hsrc2, hmin2, -⟩ := bestFold_some _ _ _ none bp2 bd2 hb2
          rcases hsrc1 with h | ⟨c1, hc1, hc1p, hc1d⟩
          · exact Option.noConfusion h
          rcases hsrc2 with h | ⟨c2, hc2, hc2p, hc2d⟩
          · exact Option.noConfusion h
          have hc2in1 : c2 ∈ extractCentroids provs1 := hcperm.mem_iff.mpr hc2
          have hc1in2 : c1 ∈ extractCentroids provs2 := hcperm.mem_iff.mp hc1
          have hle1 : bd1 ≤ bd2 := by
            have := hmin1 c2 hc2in1
            rw [← hc2d] at this
            exact this
          have hle2 : bd2 ≤ bd1 := by
            have := hmin2 c1 hc1in2
            rw [← hc1d] at this
            exact this
          have hbd : bd1 = bd2 := le_antisymm hle1 hle2
          have hsq : sqDist loc.latitude loc.longitude c1.2.1 c1.2.2
              = sqDist loc.latitude loc.longitude c2.2.1 c2.2.2 := by
            rw [← hc1d, ← hc2d, hbd]
          have hbp : bp1 = bp2 := by
            rw [← hc1p, ← hc2p]
            exact huniq loc hloc c1 hc1 c2 hc2in1 hsq
          rw [hbd, hbp]

/-- Witness for C6's theorem at a concrete input: one record at (5, 5)
and the two centroids `a` at (4, 5) and `b` at (7, 5) (distinct squared
distances 1 and 4) given in both orders. -/
theorem assign_provinces_perm_invariant_witness :
    _assign_provinces [⟨"x", 5, 5, none⟩]
        [⟨"a", some 4, some 5⟩, ⟨"b", some 7, some 5⟩]
      = _assign_provinces [⟨"x", 5, 5, none⟩]
          [⟨"b", some 7, some 5⟩, ⟨"a", some 4, some 5⟩] := by
  have hcents : extractCentroids [⟨"a", some 4, some 5⟩, ⟨"b", some 7, some 5⟩]
      = [("a", 4, 5), ("b", 7, 5)] := by
    norm_num [extractCentroids, List.filterMap_cons, List.filterMap_nil]
  refine assign_provinces_perm_invariant _ _ _ (List.Perm.swap _ _ _) ?_
  intro loc hloc c1 hc1 c2 hc2 hsq
  have hlx : loc = ⟨"x", 5, 5, none⟩ := List.mem_singleton.mp hloc
  rw [hcents] at hc1 hc2
  rw [hlx] at hsq
  rcases List.mem_cons.mp hc1 with rfl | hc1'
  · rcases List.mem_cons.mp hc2 with rfl | hc2'
    · rfl
    · have hcx : c2 = ("b", 7, 5) := List.mem_singleton.mp hc2'
      rw [hcx] at hsq
      norm_num [sqDist] at hsq
  · have hcx : c1 = ("b", 7, 5) := List.mem_singleton.mp hc1'
    rcases List.mem_cons.mp hc2 with rfl | hc2'
    · rw [hcx] at hsq
      norm_num [sqDist] at hsq
    · have hcy : c2 = ("b", 7, 5) := List.mem_singleton.mp hc2'
      rw [hcx, hcy]

/-- C6 counterexample: with the record at (5, 5) and two centroids `a`
at (4, 5) and `b` at (6, 5) at exactly equal squared distance 1, the
two orderings of the centroid list assign different province ids
(`"a"` vs `"b"`), so region assignment is not independent of the
centroid input order. -/
theorem assign_provinces_tie_order_dependent :
    _assign_provinces [⟨"x", 5, 5, none⟩]
        [⟨"a", some 4, some 5⟩, ⟨"b", some 6, some 5⟩]
      ≠ _assign_provinces [⟨"x", 5, 5, none⟩]
          [⟨"b", some 6, some 5⟩, ⟨"a", some 4, some 5⟩] := by
  rw [eval_tie_ab, eval_tie_ba]
  intro h
  injection h with h1 _
  have h2 : (some "a" : Option String) = some "b" := congrArg LocationRec.province_id h1
  injection h2 with h3
  exact absurd h3 (by decide)
